import Mathlib

namespace Hailo

/-! Section: SharedPipeline embedding

Shallow at-rest embedding of the `SharedPipeline` class (shared-pipeline
module).  The program is single-threaded JavaScript, so between completed
operations every `async` operation has run to completion (`this.starting`
is `null` at rest).  The `pipelineProc` handle is abstracted to the Boolean
`running`, matching `isRunning()` = `pipelineProc && exitCode === null`
observed at rest.  Sending SIGINT in `stopPipeline` and the subsequent
`close` handler (which nulls `pipelineProc`/`pipelineConfig` and skips the
restart because `intentionalStop` is set) are collapsed into one at-rest
step. -/

structure PipeConfig where
  width : Nat
  height : Nat
  fps : Nat
deriving DecidableEq, Repr

/-- JS object used as the `users` map: insertion-ordered key/value pairs. -/
abbrev Users := List (String × Nat)

def userCount (u : Users) (ty : String) : Nat :=
  (List.lookup ty u).getD 0

/-- JS `Object.values(this.users).reduce((sum, value) => sum + value, 0)`. -/
def totalUsers (u : Users) : Nat :=
  (u.map Prod.snd).sum

/-- JS `if (this.users[type] === undefined) this.users[type] = 0;`
(a fresh property is appended at the end of the object). -/
def ensureKey (u : Users) (ty : String) : Users :=
  if (List.lookup ty u).isSome then u else u ++ [(ty, 0)]

/-- JS property assignment `this.users[type] = v`. -/
def setCount : Users → String → Nat → Users
  | [], ty, v => [(ty, v)]
  | (k, w) :: rest, ty, v =>
      if k == ty then (k, v) :: rest else (k, w) :: setCount rest ty v

structure PipeErr where
  message : String
  status : Nat
deriving DecidableEq, Repr

structure PipeState where
  running : Bool
  pipelineConfig : Option PipeConfig
  lastConfig : Option PipeConfig
  users : Users
  restarting : Bool
  intentionalStop : Bool
deriving DecidableEq, Repr

/-- Constructor state: `users = { preview: 0, session: 0 }`. -/
def initPipe : PipeState :=
  { running := false, pipelineConfig := none, lastConfig := none,
    users := [("preview", 0), ("session", 0)],
    restarting := false, intentionalStop := false }

namespace SharedPipeline

/-- The `isConfigCompatible(config)` check; the first argument is `this.pipelineConfig`. -/
def isConfigCompatible (current requested : Option PipeConfig) : Bool :=
  match current, requested with
  | none, _ => true
  | _, none => true
  | some a, some b => a.width == b.width && a.height == b.height && a.fps == b.fps

/-- The `stopPipeline(reason)` call plus the resulting `close` of the process (the
`close` handler nulls the proc and config; `intentionalStop` suppresses
`maybeRestart`). -/
def stopPipeline (s : PipeState) : PipeState :=
  if !s.running then s
  else { s with running := false, pipelineConfig := none, intentionalStop := true }

def maybeStop (s : PipeState) : PipeState :=
  if totalUsers s.users = 0 then stopPipeline s else s

/-- The `maybeRestart()` call at rest (`this.starting` is `null`); setting
`restarting := true` models the scheduled `setTimeout` restart. -/
def maybeRestart (s : PipeState) : PipeState :=
  if totalUsers s.users = 0 then s
  else if s.restarting then s
  else if s.lastConfig.isNone then s
  else { s with restarting := true }

/-- The `startPipeline(config)` call with the health-check wait collapsed: `ok` is the
environment's verdict of `waitForHealthy` (the spawned process survived the
window).  On failure the child's `close` handler has already run (nulling the
proc and config and invoking `maybeRestart`, since `intentionalStop` is
`false`), and `waitForHealthy` throws the 409 "Camera device busy" error. -/
def startPipeline (s : PipeState) (c : PipeConfig) (ok : Bool) :
    Option PipeErr × PipeState :=
  if ok then
    (none, { s with intentionalStop := false, pipelineConfig := some c,
                    lastConfig := some c, running := true })
  else
    (some { message := "Camera device busy", status := 409 },
     maybeRestart { s with intentionalStop := false, pipelineConfig := none,
                           lastConfig := some c, running := false })

def ensureRunning (s : PipeState) (cfg : Option PipeConfig) (ok : Bool) :
    Option PipeErr × PipeState :=
  if s.running then
    if isConfigCompatible s.pipelineConfig cfg then (none, s)
    else (some { message := "Pipeline already running with different settings",
                 status := 409 }, s)
  else
    match cfg with
    | none => (some { message := "Pipeline config is required", status := 500 }, s)
    | some c => startPipeline s c ok

/-- The `retain(type, config)` call: key-init, `ensureRunning`, then the increment,
which happens only after `ensureRunning` resolved without throwing. -/
def retain (s : PipeState) (ty : String) (cfg : Option PipeConfig) (ok : Bool) :
    Option PipeErr × PipeState :=
  match ensureRunning { s with users := ensureKey s.users ty } cfg ok with
  | (none, s1) =>
      (none, { s1 with users := setCount s1.users ty (userCount s1.users ty + 1) })
  | (some e, s1) => (some e, s1)

/-- The `release(type)` call: key-init, `Math.max(0, n - 1)` (truncated subtraction on
`Nat`), then `maybeStop()`. -/
def release (s : PipeState) (ty : String) : PipeState :=
  maybeStop { s with users := setCount (ensureKey s.users ty) ty
                       (userCount (ensureKey s.users ty) ty - 1) }

/-- Unexpected process exit: the `close` handler nulls proc and config and,
when the stop was not intentional, runs `maybeRestart`. -/
def crashExit (s : PipeState) : PipeState :=
  if !s.running then s
  else if s.intentionalStop then { s with running := false, pipelineConfig := none }
  else maybeRestart { s with running := false, pipelineConfig := none }

/-- The scheduled restart timer firing:
`this.ensureRunning(this.lastConfig) ... .finally(() => { this.restarting = false; })`.
There is no reference-count guard inside the timer callback. -/
def restartFire (s : PipeState) (ok : Bool) : PipeState :=
  if !s.restarting then s
  else { (ensureRunning s s.lastConfig ok).2 with restarting := false }

end SharedPipeline

inductive PipeEvent
  | retain (ty : String) (cfg : Option PipeConfig) (ok : Bool)
  | release (ty : String)
  | crash
  | restartFire (ok : Bool)
deriving DecidableEq, Repr

def pipeStep (s : PipeState) : PipeEvent → PipeState
  | .retain ty cfg ok => (SharedPipeline.retain s ty cfg ok).2
  | .release ty => SharedPipeline.release s ty
  | .crash => SharedPipeline.crashExit s
  | .restartFire ok => SharedPipeline.restartFire s ok

def runPipe (evs : List PipeEvent) : PipeState :=
  evs.foldl pipeStep initPipe

theorem totalUsers_nil : totalUsers [] = 0 := rfl

theorem userCount_append_zero (u : Users) (ty t : String) :
    userCount (u ++ [(ty, 0)]) t = userCount u t := by
  induction u with
  | nil =>
      by_cases h : t = ty
      · subst h
        simp [userCount, List.lookup]
      · have h1 : (t == ty) = false := beq_eq_false_iff_ne.2 h
        simp [userCount, List.lookup, h1]
  | cons hd tl ih =>
      obtain ⟨k, w⟩ := hd
      by_cases h : t = k
      · subst h
        simp [userCount, List.lookup]
      · have h1 : (t == k) = false := beq_eq_false_iff_ne.2 h
        simp only [userCount, List.cons_append, List.lookup, h1] at ih ⊢
        exact ih

theorem userCount_ensureKey (u : Users) (ty t : String) :
    userCount (ensureKey u ty) t = userCount u t := by
  unfold ensureKey
  split
  · rfl
  · exact userCount_append_zero u ty t

theorem users_maybeRestart (s : PipeState) :
    (SharedPipeline.maybeRestart s).users = s.users := by
  unfold SharedPipeline.maybeRestart
  repeat' split
  all_goals rfl

/-- Claim C6: a retain on a pipeline already running with some configuration
fails with a 409 conflict error when the requested configuration differs in
width, height, or fps, and the original pipeline keeps running with its
configuration and all reference counts unchanged. -/
theorem C6_config_conflict_rejected (s : PipeState) (ty : String)
    (c c' : PipeConfig) (ok : Bool) (hrun : s.running = true)
    (hcfg : s.pipelineConfig = some c)
    (hdiff : c.width ≠ c'.width ∨ c.height ≠ c'.height ∨ c.fps ≠ c'.fps) :
    (∃ e, (SharedPipeline.retain s ty (some c') ok).1 = some e ∧ e.status = 409) ∧
      (SharedPipeline.retain s ty (some c') ok).2.running = true ∧
      (SharedPipeline.retain s ty (some c') ok).2.pipelineConfig = some c ∧
      ∀ t, userCount (SharedPipeline.retain s ty (some c') ok).2.users t =
        userCount s.users t := by
  have hc : SharedPipeline.isConfigCompatible (some c) (some c') = false := by
    simp only [SharedPipeline.isConfigCompatible, Bool.and_eq_false_iff]
    rcases hdiff with h | h | h
    · exact Or.inl (Or.inl (beq_eq_false_iff_ne.2 h))
    · exact Or.inl (Or.inr (beq_eq_false_iff_ne.2 h))
    · exact Or.inr (beq_eq_false_iff_ne.2 h)
  refine ⟨⟨{ message := "Pipeline already running with different settings",
             status := 409 }, ?_, rfl⟩, ?_, ?_, fun t => ?_⟩ <;>
    simp [SharedPipeline.retain, SharedPipeline.ensureRunning, hrun, hc, hcfg,
      userCount_ensureKey]

/-- Witness for C6: a pipeline running at 1280x720@30 rejects a retain
asking for 640x480@15 and is left untouched. -/
theorem C6_config_conflict_rejected_witness :
    (∃ e, (SharedPipeline.retain
        { running := true, pipelineConfig := some ⟨1280, 720, 30⟩,
          lastConfig := some ⟨1280, 720, 30⟩, users := [("preview", 1)],
          restarting := false, intentionalStop := false }
        "session" (some ⟨640, 480, 15⟩) true).1 = some e ∧ e.status = 409) ∧
      (SharedPipeline.retain
        { running := true, pipelineConfig := some ⟨1280, 720, 30⟩,
          lastConfig := some ⟨1280, 720, 30⟩, users := [("preview", 1)],
          restarting := false, intentionalStop := false }
        "session" (some ⟨640, 480, 15⟩) true).2.running = true ∧
      (SharedPipeline.retain
        { running := true, pipelineConfig := some ⟨1280, 720, 30⟩,
          lastConfig := some ⟨1280, 720, 30⟩, users := [("preview", 1)],
          restarting := false, intentionalStop := false }
        "session" (some ⟨640, 480, 15⟩) true).2.pipelineConfig =
        some ⟨1280, 720, 30⟩ ∧
      userCount (SharedPipeline.retain
        { running := true, pipelineConfig := some ⟨1280, 720, 30⟩,
          lastConfig := some ⟨1280, 720, 30⟩, users := [("preview", 1)],
          restarting := false, intentionalStop := false }
        "session" (some ⟨640, 480, 15⟩) true).2.users "preview" = 1 := by
  have T := C6_config_conflict_rejected
    { running := true, pipelineConfig := some ⟨1280, 720, 30⟩,
      lastConfig := some ⟨1280, 720, 30⟩, users := [("preview", 1)],
      restarting := false, intentionalStop := false }
    "session" ⟨1280, 720, 30⟩ ⟨640, 480, 15⟩ true rfl rfl (by decide)
  exact ⟨T.1, T.2.1, T.2.2.1, (T.2.2.2 "preview").trans (by decide)⟩

/-- Counterexample to claim C8 as stated: after a crash schedules a restart
and the only consumer releases (total count drops to 0), the restart fires
with total count 0 and nevertheless starts a new pipeline process. -/
theorem C8_counterexample :
    totalUsers (runPipe [PipeEvent.retain "preview" (some ⟨1280, 720, 30⟩) true,
      PipeEvent.crash, PipeEvent.release "preview"]).users = 0 ∧
    (runPipe [PipeEvent.retain "preview" (some ⟨1280, 720, 30⟩) true,
      PipeEvent.crash, PipeEvent.release "preview"]).restarting = true ∧
    (runPipe [PipeEvent.retain "preview" (some ⟨1280, 720, 30⟩) true,
      PipeEvent.crash, PipeEvent.release "preview",
      PipeEvent.restartFire true]).running = true ∧
    totalUsers (runPipe [PipeEvent.retain "preview" (some ⟨1280, 720, 30⟩) true,
      PipeEvent.crash, PipeEvent.release "preview",
      PipeEvent.restartFire true]).users = 0 := by
  decide

/-- Claim C8 amended: the scheduled restart is NOT guarded against zero
count at fire time: even when the total reference count is 0 when it fires,
it calls `ensureRunning` with the last configuration and (when the start
succeeds) a new pipeline process is started. -/
theorem C8_amended_restart_unguarded (s : PipeState) (c : PipeConfig)
    (hres : s.restarting = true) (hrun : s.running = false)
    (hlast : s.lastConfig = some c) (_hzero : totalUsers s.users = 0) :
    (SharedPipeline.restartFire s true).running = true ∧
      (SharedPipeline.restartFire s true).restarting = false := by
  simp [SharedPipeline.restartFire, hres, SharedPipeline.ensureRunning, hrun,
    hlast, SharedPipeline.startPipeline]

/-- Witness for the amended C8. -/
theorem C8_amended_restart_unguarded_witness :
    (SharedPipeline.restartFire
      { running := false, pipelineConfig := none,
        lastConfig := some ⟨1280, 720, 30⟩, users := [("preview", 0)],
        restarting := true, intentionalStop := false } true).running = true ∧
    (SharedPipeline.restartFire
      { running := false, pipelineConfig := none,
        lastConfig := some ⟨1280, 720, 30⟩, users := [("preview", 0)],
        restarting := true, intentionalStop := false } true).restarting = false :=
  C8_amended_restart_unguarded _ ⟨1280, 720, 30⟩ rfl rfl rfl (by decide)

/-- Claim C10: `retain` is atomic on error — whenever it fails (pipeline
start failure, missing configuration, or configuration conflict) every
consumer class's reference count is unchanged, because the increment happens
only after the pipeline is confirmed running. -/
theorem C10_retain_atomic_on_error (s : PipeState) (ty : String)
    (cfg : Option PipeConfig) (ok : Bool) (e : PipeErr)
    (herr : (SharedPipeline.retain s ty cfg ok).1 = some e) :
    ∀ t, userCount (SharedPipeline.retain s ty cfg ok).2.users t =
      userCount s.users t := by
  intro t
  by_cases hrun : s.running = true
  · by_cases hc : SharedPipeline.isConfigCompatible s.pipelineConfig cfg = true
    · simp [SharedPipeline.retain, SharedPipeline.ensureRunning, hrun, hc] at herr
    · simp [SharedPipeline.retain, SharedPipeline.ensureRunning, hrun, hc,
        userCount_ensureKey]
  · have hrun' : s.running = false := by
      revert hrun; cases s.running <;> simp
    cases cfg with
    | none =>
        simp [SharedPipeline.retain, SharedPipeline.ensureRunning, hrun',
          userCount_ensureKey]
    | some c =>
        cases ok with
        | true =>
            simp [SharedPipeline.retain, SharedPipeline.ensureRunning,
              SharedPipeline.startPipeline, hrun'] at herr
        | false =>
            simp [SharedPipeline.retain, SharedPipeline.ensureRunning,
              SharedPipeline.startPipeline, hrun', users_maybeRestart,
              userCount_ensureKey]

/-- Witness for C10 at the configuration-conflict error. -/
theorem C10_retain_atomic_on_error_witness :
    userCount (SharedPipeline.retain
      { running := true, pipelineConfig := some ⟨1280, 720, 30⟩,
        lastConfig := some ⟨1280, 720, 30⟩, users := [("preview", 1)],
        restarting := false, intentionalStop := false }
      "preview" (some ⟨640, 480, 15⟩) true).2.users "preview" =
      userCount [("preview", 1)] "preview" :=
  C10_retain_atomic_on_error _ "preview" (some ⟨640, 480, 15⟩) true
    ⟨"Pipeline already running with different settings", 409⟩ (by decide) "preview"

/-! Section: Capture lock embedding

Embedding of `isBusy` / `cleanupStaleLock` / `tryAcquireLock` /
`releaseLock` from the server module.  The lock file on disk is an
`Option LockFile`, the in-process `busy` flag is a Boolean, and `Date.now()`
is an explicit `now` parameter.  The self-recursion of `tryAcquireLock`
(retry once a stale lock has been removed) is bounded by explicit fuel;
in the sequential model the retry branch is unreachable, so any fuel value
reproduces the code's behaviour. -/

def COMMAND_GRACE_MS : Nat := 3000

def LOCK_FALLBACK_TTL_MS : Nat := 10 * 60 * 1000

/-- One field of the parsed lock record as the JS code reads it.
For the `expiresAt`/`expireAt` fields: `val v` is a present truthy value
with `Number(...) = v`, `val 0` is the falsy number `0`, `nan` is a present
truthy value whose `Number(...)` is `NaN` (the `now > expiresAt` comparison
is then false), and `absent` is a missing field.
For the `createdAt` field: `val v` is a present truthy string with
`new Date(...).getTime() = v`, `nan` a present truthy string whose date is
invalid (`getTime()` is `NaN`), and `absent` a missing or falsy field. -/
inductive JsField
  | absent
  | nan
  | val (v : Nat)
deriving DecidableEq, Repr

/-- Truthiness of an `expiresAt`/`expireAt` field value. -/
def JsField.truthy : JsField → Bool
  | .absent => false
  | .nan => true
  | .val v => !(v == 0)

/-- JS `parsed.expiresAt || parsed.expireAt`. -/
def jsOrField (a b : JsField) : JsField :=
  if a.truthy then a else if b.truthy then b else .absent

inductive LockContent
  | unparseable
  | parsed (expiresAtField expireAtField createdAtField : JsField)
deriving DecidableEq, Repr

structure LockFile where
  mtimeMs : Nat
  content : LockContent
deriving DecidableEq, Repr

structure LockState where
  busy : Bool
  file : Option LockFile
deriving DecidableEq, Repr

namespace Lock

/-- The expiry `cleanupStaleLock` computes for a lock file: the declared
`expiresAt || expireAt` value when truthy and numeric, else
`createdAt + LOCK_FALLBACK_TTL_MS` when `createdAt` is truthy and
parseable, else `mtimeMs + LOCK_FALLBACK_TTL_MS` (also the basis when the
whole record is unparseable).  `none` models a `NaN` expiry, against which
`Date.now() > expiresAt` is always false. -/
def lockExpiry (f : LockFile) : Option Nat :=
  match f.content with
  | .unparseable => some (f.mtimeMs + LOCK_FALLBACK_TTL_MS)
  | .parsed expiresAtF expireAtF createdAtF =>
      match jsOrField expiresAtF expireAtF with
      | .val v => some v
      | .nan => none
      | .absent =>
          match createdAtF with
          | .val c => some (c + LOCK_FALLBACK_TTL_MS)
          | .nan => none
          | .absent => some (f.mtimeMs + LOCK_FALLBACK_TTL_MS)

/-- The `cleanupStaleLock()` call: returns whether a stale lock was removed, plus the
resulting lock file.  A missing file is the `ENOENT` path (returns false). -/
def cleanupStaleLock (now : Nat) (file : Option LockFile) :
    Bool × Option LockFile :=
  match file with
  | none => (false, none)
  | some f =>
      match lockExpiry f with
      | some e => if e < now then (true, none) else (false, some f)
      | none => (false, some f)

/-- The record `tryAcquireLock` writes: pid, `createdAt` = the current time
as an ISO string, `expiresAt` = `now + max(expectedMs + COMMAND_GRACE_MS, 5000)`,
and an advisory note. -/
def mkLockRecord (now expectedMs : Nat) : LockFile :=
  { mtimeMs := now,
    content := .parsed (.val (now + max (expectedMs + COMMAND_GRACE_MS) 5000))
      .absent (.val now) }

/-- The `tryAcquireLock(expectedMs)` call: stale cleanup, in-process busy check,
exclusive (`wx`) create; on `EEXIST` re-check staleness once and retry the
whole acquisition if a stale lock was removed.  `fuel` bounds the retry
recursion (the retry branch is unreachable in the sequential model because
the first cleanup already ran at the same `now`). -/
def tryAcquireLock (fuel now expectedMs : Nat) (s : LockState) :
    Bool × LockState :=
  if s.busy then (false, { s with file := (cleanupStaleLock now s.file).2 })
  else
    match (cleanupStaleLock now s.file).2 with
    | none => (true, { busy := true, file := some (mkLockRecord now expectedMs) })
    | some f =>
        match cleanupStaleLock now (some f) with
        | (true, f2) =>
            match fuel with
            | 0 => (false, { s with file := f2 })
            | fuel' + 1 => tryAcquireLock fuel' now expectedMs { s with file := f2 }
        | (false, f2) => (false, { s with file := f2 })

/-- The `releaseLock()` call: clears the in-process flag and deletes the lock file. -/
def releaseLock (s : LockState) : LockState :=
  { s with busy := false, file := none }

/-- The `isBusy()` call: true when the in-process flag is set (without touching the
file), false when the file is absent, otherwise the staleness check decides. -/
def isBusy (now : Nat) (s : LockState) : Bool × LockState :=
  if s.busy then (true, s)
  else
    match s.file with
    | none => (false, s)
    | some _ =>
        match cleanupStaleLock now s.file with
        | (stale, f2) => (!stale, { s with file := f2 })

end Lock

/-- Claim C2: `tryAcquire` never grants two concurrent holders.  A call made
while the in-process flag is held returns false; a successful call sets the
flag (so every later call fails until `release`); and in the concrete
contention scenario caller A acquires with `expectedDurationMs = 5000`,
caller B's `tryAcquire` within that window returns false, and after A's
release B's next `tryAcquire` returns true. -/
theorem C2_tryAcquire_mutual_exclusion :
    (∀ fuel now ms s, s.busy = true →
      (Lock.tryAcquireLock fuel now ms s).1 = false) ∧
    (∀ fuel now ms s, (Lock.tryAcquireLock fuel now ms s).1 = true →
      (Lock.tryAcquireLock fuel now ms s).2.busy = true) ∧
    ((Lock.tryAcquireLock 1 1000 5000 ⟨false, none⟩).1 = true ∧
     (Lock.tryAcquireLock 1 2000 5000
        (Lock.tryAcquireLock 1 1000 5000 ⟨false, none⟩).2).1 = false ∧
     (Lock.tryAcquireLock 1 3000 5000
        (Lock.releaseLock (Lock.tryAcquireLock 1 2000 5000
          (Lock.tryAcquireLock 1 1000 5000 ⟨false, none⟩).2).2)).1 = true) ∧
    (∀ fuel now ms s, s.busy = true →
      (Lock.tryAcquireLock fuel now ms s).2.busy = true) := by
  refine ⟨?_, ?_, by decide, ?_⟩
  case refine_3 =>
    intro fuel now ms s hb
    simp [Lock.tryAcquireLock, hb]
  · intro fuel now ms s hb
    simp [Lock.tryAcquireLock, hb]
  · intro fuel
    induction fuel with
    | zero =>
        intro now ms s hacq
        by_cases hb : s.busy = true
        · simp [Lock.tryAcquireLock, hb] at hacq
        · simp only [Bool.not_eq_true] at hb
          rw [Lock.tryAcquireLock] at hacq ⊢
          simp only [hb, Bool.false_eq_true, if_false] at hacq ⊢
          rcases hf : (Lock.cleanupStaleLock now s.file).2 with _ | f
          · simp [hf]
          · simp only [hf] at hacq ⊢
            rcases hc : Lock.cleanupStaleLock now (some f) with ⟨st, f2⟩
            cases st <;> simp [hc] at hacq
    | succ fuel ih =>
        intro now ms s hacq
        by_cases hb : s.busy = true
        · simp [Lock.tryAcquireLock, hb] at hacq
        · simp only [Bool.not_eq_true] at hb
          rw [Lock.tryAcquireLock] at hacq ⊢
          simp only [hb, Bool.false_eq_true, if_false] at hacq ⊢
          rcases hf : (Lock.cleanupStaleLock now s.file).2 with _ | f
          · simp [hf]
          · simp only [hf] at hacq ⊢
            rcases hc : Lock.cleanupStaleLock now (some f) with ⟨st, f2⟩
            cases st
            · simp [hc] at hacq
            · simp only [hc] at hacq ⊢
              exact ih now ms _ hacq

/-- Witness for C2: the two universally quantified parts applied at
concrete states. -/
theorem C2_tryAcquire_mutual_exclusion_witness :
    (Lock.tryAcquireLock 1 5 5000 ⟨true, none⟩).1 = false ∧
    (Lock.tryAcquireLock 1 1000 5000 ⟨false, none⟩).2.busy = true :=
  ⟨C2_tryAcquire_mutual_exclusion.1 1 5 5000 ⟨true, none⟩ rfl,
   C2_tryAcquire_mutual_exclusion.2.1 1 1000 5000 ⟨false, none⟩ (by decide)⟩

/-- Counterexample to claim C5 as stated: with the in-process `busy` flag
set, `isBusy` returns early and does NOT delete a lock record whose computed
expiry (declared `expiresAt = 5`) is long past at `now = 10`. -/
theorem C5_counterexample :
    Lock.lockExpiry ⟨0, .parsed (.val 5) .absent .absent⟩ = some 5 ∧
    (Lock.isBusy 10 ⟨true, some ⟨0, .parsed (.val 5) .absent .absent⟩⟩).2.file =
      some ⟨0, .parsed (.val 5) .absent .absent⟩ := by
  decide

/-- Claim C5 amended: the expiry basis is the declared `expiresAt` field if
present, else `createdAt` plus the fallback TTL, else (record unparseable)
the file mtime plus the fallback TTL; a record past that expiry is deleted
by the next `cleanup` or `tryAcquire` call regardless of basis, and by
`isBusy` whenever the in-process busy flag is clear (when the flag is set,
`isBusy` returns early without touching the file). -/
theorem C5_amended_stale_removal :
    (∀ now (f : LockFile) (e : Nat), Lock.lockExpiry f = some e → e < now →
      Lock.cleanupStaleLock now (some f) = (true, none)) ∧
    (∀ fuel now ms (s : LockState) (f : LockFile) (e : Nat), s.file = some f →
      Lock.lockExpiry f = some e → e < now →
      Lock.tryAcquireLock fuel now ms s =
        Lock.tryAcquireLock fuel now ms { s with file := none }) ∧
    (∀ now (s : LockState) (f : LockFile) (e : Nat), s.busy = false →
      s.file = some f → Lock.lockExpiry f = some e → e < now →
      Lock.isBusy now s = (false, { s with file := none })) := by
  refine ⟨?_, ?_, ?_⟩
  · intro now f e he hlt
    simp [Lock.cleanupStaleLock, he, hlt]
  · intro fuel now ms s f e hfile he hlt
    have hclean : Lock.cleanupStaleLock now s.file = (true, none) := by
      rw [hfile]; simp [Lock.cleanupStaleLock, he, hlt]
    have hnone : Lock.cleanupStaleLock now (none : Option LockFile) = (false, none) :=
      rfl
    rw [Lock.tryAcquireLock, Lock.tryAcquireLock]
    simp only [hclean, hnone]
  · intro now s f e hb hfile he hlt
    have hclean : Lock.cleanupStaleLock now s.file = (true, none) := by
      rw [hfile]; simp [Lock.cleanupStaleLock, he, hlt]
    unfold Lock.isBusy
    simp only [hb, Bool.false_eq_true, if_false]
    rw [hfile] at hclean ⊢
    simp [hclean]

/-- Witness for the amended C5 at all three expiry bases: a declared
`expiresAt`, a `createdAt`-derived expiry, and an unparseable record whose
expiry derives from the file mtime; plus the `tryAcquire` and `isBusy`
deletions at concrete states. -/
theorem C5_amended_stale_removal_witness :
    Lock.cleanupStaleLock 10 (some ⟨0, .parsed (.val 5) .absent .absent⟩) =
      (true, none) ∧
    Lock.cleanupStaleLock 700000 (some ⟨0, .parsed .absent .absent (.val 100)⟩) =
      (true, none) ∧
    Lock.cleanupStaleLock 700000 (some ⟨7, .unparseable⟩) = (true, none) ∧
    Lock.tryAcquireLock 1 10 5000 ⟨false, some ⟨0, .parsed (.val 5) .absent .absent⟩⟩ =
      Lock.tryAcquireLock 1 10 5000 ⟨false, none⟩ ∧
    Lock.isBusy 10 ⟨false, some ⟨0, .parsed (.val 5) .absent .absent⟩⟩ =
      (false, ⟨false, none⟩) :=
  ⟨C5_amended_stale_removal.1 10 ⟨0, .parsed (.val 5) .absent .absent⟩ 5 rfl
      (by decide),
   C5_amended_stale_removal.1 700000 ⟨0, .parsed .absent .absent (.val 100)⟩
      600100 rfl (by decide),
   C5_amended_stale_removal.1 700000 ⟨7, .unparseable⟩ 600007 rfl (by decide),
   C5_amended_stale_removal.2.1 1 10 5000
      ⟨false, some ⟨0, .parsed (.val 5) .absent .absent⟩⟩
      ⟨0, .parsed (.val 5) .absent .absent⟩ 5 rfl rfl (by decide),
   C5_amended_stale_removal.2.2 10
      ⟨false, some ⟨0, .parsed (.val 5) .absent .absent⟩⟩
      ⟨0, .parsed (.val 5) .absent .absent⟩ 5 rfl rfl rfl (by decide)⟩

/-! Section: Session supervisor embedding (ProcessManager in the session module)

Exit coordination of the two session subprocesses: each `close` handler
records `session.exits[label]` and calls `onProcessExit`; `failSession`,
`maybeFinalize` and `finishSession` drive the unique terminal transition.
The whole body of `finishSession` (status transition, state persistence,
lock release, temporary-to-final rename, SharedPipeline release, completion
callback) is instrumented by `finalizeCount`, which counts how many times
that body ran.  Signals sent to each subprocess accumulate in `sigsRecord`
and `sigsInference`; Node's `child.killed` flag (true once a signal was
successfully sent) is modelled as the sent-list being nonempty. -/

inductive SessStatus
  | running
  | stopped
  | failed
deriving DecidableEq, Repr

inductive ProcLabel
  | record
  | inference
deriving DecidableEq, Repr

def ProcLabel.str : ProcLabel → String
  | .record => "record"
  | .inference => "inference"

def ProcLabel.other : ProcLabel → ProcLabel
  | .record => .inference
  | .inference => .record

/-- A Node `close` event payload: `code` is `null` when the process was
killed by a signal. -/
structure ExitInfo where
  code : Option Int
  signal : Option String
deriving DecidableEq, Repr

structure Session where
  status : SessStatus
  stopRequested : Bool
  exitRecord : Option ExitInfo
  exitInference : Option ExitInfo
  errorMessage : Option String
  finalizeCount : Nat
  sigsRecord : List String
  sigsInference : List String
deriving DecidableEq, Repr

def initSession : Session :=
  { status := .running, stopRequested := false, exitRecord := none,
    exitInference := none, errorMessage := none, finalizeCount := 0,
    sigsRecord := [], sigsInference := [] }

namespace ProcessManager

def getExit (s : Session) : ProcLabel → Option ExitInfo
  | .record => s.exitRecord
  | .inference => s.exitInference

def setExit (s : Session) : ProcLabel → ExitInfo → Session
  | .record, e => { s with exitRecord := some e }
  | .inference, e => { s with exitInference := some e }

def getSigs (s : Session) : ProcLabel → List String
  | .record => s.sigsRecord
  | .inference => s.sigsInference

/-- The early-return guard of `terminateProcess(child, label, signal)`:
`child.killed || child.exitCode !== null`.  A recorded exit models
`exitCode !== null`, and a nonempty sent-list models `child.killed` (Node
sets it once a signal was successfully sent).  When this holds at call
time, `terminateProcess` resolves immediately, in the same turn; otherwise
it resolves only on the child's `close` event. -/
def childDone (s : Session) (label : ProcLabel) : Bool :=
  (getExit s label).isSome || !(getSigs s label).isEmpty

/-- The synchronous prefix of `terminateProcess(child, label, signal)`: the
guard above followed by the initial `child.kill(signal)` (assumed to
succeed, as in the code's non-throwing path). -/
def sendSignal (s : Session) (label : ProcLabel) (sig : String) : Session :=
  if childDone s label then s
  else
    match label with
    | .record => { s with sigsRecord := s.sigsRecord ++ [sig] }
    | .inference => { s with sigsInference := s.sigsInference ++ [sig] }

/-- The `finishSession(session, status)` call: guarded by the running-status check;
the body (counted by `finalizeCount`) sets the terminal status, persists
state, releases the lock, renames the temporary file, releases the
SharedPipeline and invokes the completion callback. -/
def finishSession (s : Session) (st : SessStatus) : Session :=
  if s.status ≠ SessStatus.running then s
  else { s with status := st, finalizeCount := s.finalizeCount + 1 }

def failSession (s : Session) (msg : String) : Session :=
  if s.status ≠ SessStatus.running then s
  else finishSession { s with errorMessage := some msg } SessStatus.failed

def maybeFinalize (s : Session) : Session :=
  if s.status = SessStatus.running ∧ s.exitRecord.isSome ∧ s.exitInference.isSome
  then finishSession s SessStatus.stopped
  else s

/-- The failure message template, label then code then optional signal suffix
(`signal` is `null` or a nonempty signal name). -/
def exitMessage (label : ProcLabel) (code : Option Int)
    (signal : Option String) : String :=
  label.str ++ " exited with code " ++
    (match code with | some c => toString c | none => "null") ++
    (match signal with | some sg => " (" ++ sg ++ ")" | none => "")

def onProcessExit (s : Session) (label : ProcLabel) (code : Option Int)
    (signal : Option String) : Session :=
  if s.status ≠ SessStatus.running then maybeFinalize s
  else if ¬s.stopRequested ∧ code ≠ some 0 then
    sendSignal (failSession s (exitMessage label code signal)) label.other "SIGINT"
  else
    maybeFinalize (if ¬s.stopRequested then
        sendSignal { s with stopRequested := true } label.other "SIGINT"
      else s)

/-- The `close` handler: record `session.exits[label]`, then `onProcessExit`. -/
def closeEvent (s : Session) (label : ProcLabel) (code : Option Int)
    (signal : Option String) : Session :=
  onProcessExit (setExit s label ⟨code, signal⟩) label code signal

end ProcessManager

inductive SessEvent
  | close (label : ProcLabel) (code : Option Int) (signal : Option String)
  | spawnErr (label : ProcLabel) (msg : String)
  | stopReq
  | stopResolve
deriving DecidableEq, Repr

/-- One cooperative turn of the supervisor: a subprocess `close` event, a
subprocess spawn `error` event (`if (session.status === 'running')
failSession(...)`), the synchronous prefix of `stopSession` (mark the
stop-requested flag, send the graceful signal to both subprocesses), or
the turn in which a pending `stopSession`'s `await Promise.all(stopTasks)`
has resolved and its epilogue
`if (session.status === 'running') finishSession(session, 'stopped')` runs.
Such an epilogue turn exists only after a stop call (which set
`stopRequested`), and it can run before the close events only when each
`terminateProcess` returned immediately, i.e. each subprocess had already
been signalled or had exited at call time; otherwise the awaited promises
resolve on the close events, which then precede this turn. -/
def sessStep (s : Session) : SessEvent → Session
  | .close label code signal => ProcessManager.closeEvent s label code signal
  | .spawnErr label msg =>
      if s.status = SessStatus.running then
        ProcessManager.failSession s (label.str ++ " spawn error: " ++ msg)
      else s
  | .stopReq =>
      if s.status ≠ SessStatus.running then s
      else
        ProcessManager.sendSignal (ProcessManager.sendSignal
          { s with stopRequested := true } .record "SIGINT") .inference "SIGINT"
  | .stopResolve =>
      if s.stopRequested && ProcessManager.childDone s .record &&
          ProcessManager.childDone s .inference then
        if s.status = SessStatus.running then
          ProcessManager.finishSession s SessStatus.stopped
        else s
      else s

def runSess (evs : List SessEvent) : Session :=
  evs.foldl sessStep initSession

/-! Subsection: Field-preservation lemmas for the session operations -/

theorem sendSignal_fields (s : Session) (l : ProcLabel) (sig : String) :
    (ProcessManager.sendSignal s l sig).status = s.status ∧
    (ProcessManager.sendSignal s l sig).finalizeCount = s.finalizeCount ∧
    (ProcessManager.sendSignal s l sig).exitRecord = s.exitRecord ∧
    (ProcessManager.sendSignal s l sig).exitInference = s.exitInference ∧
    (ProcessManager.sendSignal s l sig).stopRequested = s.stopRequested ∧
    (ProcessManager.sendSignal s l sig).errorMessage = s.errorMessage := by
  cases l <;> (unfold ProcessManager.sendSignal; split <;> simp)

theorem finishSession_exits (s : Session) (st : SessStatus) :
    (ProcessManager.finishSession s st).exitRecord = s.exitRecord ∧
    (ProcessManager.finishSession s st).exitInference = s.exitInference := by
  unfold ProcessManager.finishSession
  split <;> simp

theorem failSession_exits (s : Session) (msg : String) :
    (ProcessManager.failSession s msg).exitRecord = s.exitRecord ∧
    (ProcessManager.failSession s msg).exitInference = s.exitInference := by
  unfold ProcessManager.failSession
  split
  · simp
  · exact (finishSession_exits _ _).imp (fun h => h.trans rfl) (fun h => h.trans rfl)

theorem maybeFinalize_exits (s : Session) :
    (ProcessManager.maybeFinalize s).exitRecord = s.exitRecord ∧
    (ProcessManager.maybeFinalize s).exitInference = s.exitInference := by
  unfold ProcessManager.maybeFinalize
  split
  · exact finishSession_exits _ _
  · simp

theorem onProcessExit_exits (s : Session) (l : ProcLabel) (c : Option Int)
    (sg : Option String) :
    (ProcessManager.onProcessExit s l c sg).exitRecord = s.exitRecord ∧
    (ProcessManager.onProcessExit s l c sg).exitInference = s.exitInference := by
  unfold ProcessManager.onProcessExit
  split
  · exact maybeFinalize_exits s
  · split
    · constructor
      · exact (sendSignal_fields _ _ _).2.2.1.trans (failSession_exits _ _).1
      · exact (sendSignal_fields _ _ _).2.2.2.1.trans (failSession_exits _ _).2
    · constructor
      · refine (maybeFinalize_exits _).1.trans ?_
        split
        · exact (sendSignal_fields _ _ _).2.2.1
        · rfl
      · refine (maybeFinalize_exits _).2.trans ?_
        split
        · exact (sendSignal_fields _ _ _).2.2.2.1
        · rfl

theorem getExit_mono (s : Session) (e : SessEvent) (l : ProcLabel)
    (h : (ProcessManager.getExit s l).isSome = true) :
    (ProcessManager.getExit (sessStep s e) l).isSome = true := by
  cases e with
  | close l' c sg =>
      have hx := onProcessExit_exits
        (ProcessManager.setExit s l' ⟨c, sg⟩) l' c sg
      cases l with
      | record =>
          cases l' with
          | record =>
              simp only [sessStep, ProcessManager.closeEvent, ProcessManager.getExit]
              rw [hx.1]
              simp [ProcessManager.setExit]
          | inference =>
              simp only [sessStep, ProcessManager.closeEvent,
                ProcessManager.getExit] at h ⊢
              rw [hx.1]
              simpa [ProcessManager.setExit] using h
      | inference =>
          cases l' with
          | record =>
              simp only [sessStep, ProcessManager.closeEvent,
                ProcessManager.getExit] at h ⊢
              rw [hx.2]
              simpa [ProcessManager.setExit] using h
          | inference =>
              simp only [sessStep, ProcessManager.closeEvent, ProcessManager.getExit]
              rw [hx.2]
              simp [ProcessManager.setExit]
  | spawnErr l' msg =>
      simp only [sessStep]
      split
      · have hx := failSession_exits s (l'.str ++ " spawn error: " ++ msg)
        cases l <;>
          simp only [ProcessManager.getExit] at h ⊢ <;> simp [hx.1, hx.2, h]
      · exact h
  | stopReq =>
      simp only [sessStep]
      split
      · exact h
      · have h1 := sendSignal_fields
          { s with stopRequested := true } ProcLabel.record "SIGINT"
        have h2 := sendSignal_fields (ProcessManager.sendSignal
          { s with stopRequested := true } ProcLabel.record "SIGINT")
          ProcLabel.inference "SIGINT"
        cases l <;> simp only [ProcessManager.getExit] at h ⊢ <;>
          simp [h2.2.2.1, h2.2.2.2.1, h1.2.2.1, h1.2.2.2.1, h]
  | stopResolve =>
      simp only [sessStep]
      split
      · split
        · cases l with
          | record =>
              simp only [ProcessManager.getExit] at h ⊢
              rw [(finishSession_exits _ _).1]
              exact h
          | inference =>
              simp only [ProcessManager.getExit] at h ⊢
              rw [(finishSession_exits _ _).2]
              exact h
        · exact h
      · exact h

theorem close_sets_exit (s : Session) (l : ProcLabel) (c : Option Int)
    (sg : Option String) :
    (ProcessManager.getExit (sessStep s (.close l c sg)) l).isSome = true := by
  have hx := onProcessExit_exits (ProcessManager.setExit s l ⟨c, sg⟩) l c sg
  cases l with
  | record =>
      simp only [sessStep, ProcessManager.closeEvent, ProcessManager.getExit]
      rw [hx.1]
      simp [ProcessManager.setExit]
  | inference =>
      simp only [sessStep, ProcessManager.closeEvent, ProcessManager.getExit]
      rw [hx.2]
      simp [ProcessManager.setExit]

theorem exit_some_foldl (l : ProcLabel) (evs : List SessEvent) (s : Session)
    (h : (ProcessManager.getExit s l).isSome = true ∨
      ∃ c sg, SessEvent.close l c sg ∈ evs) :
    (ProcessManager.getExit (evs.foldl sessStep s) l).isSome = true := by
  induction evs generalizing s with
  | nil =>
      rcases h with h | ⟨c, sg, hm⟩
      · exact h
      · simp at hm
  | cons e rest ih =>
      rcases h with h | ⟨c, sg, hm⟩
      · exact ih (sessStep s e) (Or.inl (getExit_mono s e l h))
      · rcases List.mem_cons.1 hm with he | hm'
        · subst he
          exact ih _ (Or.inl (close_sets_exit s l c sg))
        · exact ih (sessStep s e) (Or.inr ⟨c, sg, hm'⟩)

/-! Subsection: The finalize-exactly-once invariant -/

def sessInv (s : Session) : Prop :=
  (s.status = SessStatus.running →
    s.finalizeCount = 0 ∧ ¬(s.exitRecord.isSome ∧ s.exitInference.isSome)) ∧
  (s.status ≠ SessStatus.running → s.finalizeCount = 1)

theorem sessInv_step (s : Session) (e : SessEvent) (h : sessInv s) :
    sessInv (sessStep s e) := by
  obtain ⟨hrun, hterm⟩ := h
  cases e with
  | close l c sg =>
      by_cases hr : s.status = SessStatus.running
      · obtain ⟨hc0, hnb⟩ := hrun hr
        simp only [sessStep, ProcessManager.closeEvent, ProcessManager.onProcessExit]
        have hst1 : (ProcessManager.setExit s l ⟨c, sg⟩).status = s.status := by
          cases l <;> rfl
        have hfc1 : (ProcessManager.setExit s l ⟨c, sg⟩).finalizeCount =
            s.finalizeCount := by
          cases l <;> rfl
        rw [if_neg (by rw [hst1, hr]; simp)]
        split
        · -- failure path: failSession then signal to the sibling
          set s1 := ProcessManager.setExit s l ⟨c, sg⟩ with hs1
          have hfail : (ProcessManager.failSession s1
              (ProcessManager.exitMessage l c sg)).status = SessStatus.failed ∧
              (ProcessManager.failSession s1
                (ProcessManager.exitMessage l c sg)).finalizeCount =
                s1.finalizeCount + 1 := by
            unfold ProcessManager.failSession ProcessManager.finishSession
            rw [if_neg (by rw [hst1, hr]; simp)]
            rw [if_neg (by rw [hst1, hr]; simp)]
            simp
          have hsf := sendSignal_fields (ProcessManager.failSession s1
            (ProcessManager.exitMessage l c sg)) l.other "SIGINT"
          constructor
          · intro habs
            rw [hsf.1, hfail.1] at habs
            simp at habs
          · intro _
            rw [hsf.2.1, hfail.2, hfc1, hc0]
        · -- clean path: optional stop-request signal, then maybeFinalize
          set s1 := ProcessManager.setExit s l ⟨c, sg⟩ with hs1
          set s2 := if ¬s1.stopRequested then
              ProcessManager.sendSignal { s1 with stopRequested := true }
                l.other "SIGINT"
            else s1 with hs2
          have hst2 : s2.status = s.status := by
            rw [hs2]
            split
            · exact (sendSignal_fields _ _ _).1.trans hst1
            · exact hst1
          have hfc2 : s2.finalizeCount = s.finalizeCount := by
            rw [hs2]
            split
            · exact (sendSignal_fields _ _ _).2.1.trans hfc1
            · exact hfc1
          unfold ProcessManager.maybeFinalize ProcessManager.finishSession
          split
          · rename_i hcond
            rw [if_neg (by rw [hst2, hr]; simp)]
            constructor
            · intro habs
              simp at habs
            · intro _
              simp [hfc2, hc0]
          · rename_i hcond
            rw [not_and] at hcond
            constructor
            · intro _
              refine ⟨hfc2.trans hc0, ?_⟩
              intro hb
              exact (hcond (hst2.trans hr)) hb
            · intro habs
              exact absurd (hst2.trans hr) habs
      · -- already terminal: maybeFinalize is a no-op on a non-running session
        have hc1 := hterm hr
        simp only [sessStep, ProcessManager.closeEvent, ProcessManager.onProcessExit]
        have hst1 : (ProcessManager.setExit s l ⟨c, sg⟩).status = s.status := by
          cases l <;> rfl
        have hfc1 : (ProcessManager.setExit s l ⟨c, sg⟩).finalizeCount =
            s.finalizeCount := by
          cases l <;> rfl
        rw [if_pos (by rw [hst1]; exact hr)]
        unfold ProcessManager.maybeFinalize
        rw [if_neg (by rw [hst1]; exact fun hk => hr hk.1)]
        exact ⟨fun habs => absurd (hst1.symm.trans habs) hr,
          fun _ => hfc1.trans hc1⟩
  | spawnErr l msg =>
      simp only [sessStep]
      split
      · rename_i hr
        obtain ⟨hc0, _⟩ := hrun hr
        unfold ProcessManager.failSession ProcessManager.finishSession
        rw [if_neg (by rw [hr]; simp)]
        rw [if_neg (by rw [hr]; simp)]
        exact ⟨fun habs => by simp at habs, fun _ => by simp [hc0]⟩
      · exact ⟨hrun, hterm⟩
  | stopReq =>
      simp only [sessStep]
      split
      · exact ⟨hrun, hterm⟩
      · rename_i hr
        rw [not_not] at hr
        obtain ⟨hc0, hnb⟩ := hrun hr
        have h1 := sendSignal_fields
          { s with stopRequested := true } ProcLabel.record "SIGINT"
        have h2 := sendSignal_fields (ProcessManager.sendSignal
          { s with stopRequested := true } ProcLabel.record "SIGINT")
          ProcLabel.inference "SIGINT"
        constructor
        · intro _
          refine ⟨h2.2.1.trans (h1.2.1.trans hc0), ?_⟩
          rw [h2.2.2.1, h2.2.2.2.1, h1.2.2.1, h1.2.2.2.1]
          exact hnb
        · intro habs
          rw [h2.1, h1.1] at habs
          exact absurd hr habs
  | stopResolve =>
      simp only [sessStep]
      split
      · split
        · rename_i hr
          obtain ⟨hc0, _⟩ := hrun hr
          unfold ProcessManager.finishSession
          rw [if_neg (by rw [hr]; simp)]
          exact ⟨fun habs => by simp at habs, fun _ => by simp [hc0]⟩
        · exact ⟨hrun, hterm⟩
      · exact ⟨hrun, hterm⟩

theorem sessInv_foldl (evs : List SessEvent) (s : Session) (h : sessInv s) :
    sessInv (evs.foldl sessStep s) := by
  induction evs generalizing s with
  | nil => exact h
  | cons e rest ih => exact ih (sessStep s e) (sessInv_step s e h)

theorem sessInv_run (evs : List SessEvent) : sessInv (runSess evs) :=
  sessInv_foldl evs initSession (by simp [sessInv, initSession])

/-- Counterexample to claim C3 as stated: a `record` close with code 1 on a
fresh running session finalizes immediately — the session reaches the
terminal `failed` status and the finalization body has run once — while the
`inference` subprocess has not closed yet. -/
theorem C3_counterexample :
    (runSess [SessEvent.close .record (some 1) none]).status =
      SessStatus.failed ∧
    (runSess [SessEvent.close .record (some 1) none]).finalizeCount = 1 ∧
    (runSess [SessEvent.close .record (some 1) none]).exitInference = none := by
  decide

/-- Claim C3 amended: finalization fires exactly once per session — at most
once on every trace, and exactly once when both subprocesses eventually
close — even when both subprocess close events, the supervisor's own
failure path, and overlapping stop requests trigger it in overlapping
ticks.  It is NOT guaranteed to happen only after both subprocesses have
closed: a non-zero exit while stop was not requested finalizes the session
immediately, and a stop request that finds both subprocesses already
signalled but not yet closed finalizes through stopSession's post-await
epilogue before either close (third conjunct: after a stop request the
resolved epilogue finalizes the session as `stopped` with both exit
records still empty). -/
theorem C3_amended_finalize_exactly_once :
    (∀ evs : List SessEvent, (runSess evs).finalizeCount ≤ 1) ∧
    (∀ evs : List SessEvent,
      (∃ c sg, SessEvent.close .record c sg ∈ evs) →
      (∃ c sg, SessEvent.close .inference c sg ∈ evs) →
      (runSess evs).finalizeCount = 1) ∧
    ((runSess [SessEvent.stopReq, SessEvent.stopResolve]).finalizeCount = 1 ∧
     (runSess [SessEvent.stopReq, SessEvent.stopResolve]).status =
       SessStatus.stopped ∧
     (runSess [SessEvent.stopReq, SessEvent.stopResolve]).exitRecord = none ∧
     (runSess [SessEvent.stopReq, SessEvent.stopResolve]).exitInference = none) := by
  refine ⟨?_, ?_, by decide⟩
  · intro evs
    obtain ⟨hrun, hterm⟩ := sessInv_run evs
    by_cases hr : (runSess evs).status = SessStatus.running
    · rw [(hrun hr).1]
      omega
    · rw [hterm hr]
  · intro evs hr hi
    obtain ⟨hrun, hterm⟩ := sessInv_run evs
    have hxr : (runSess evs).exitRecord.isSome = true := by
      have := exit_some_foldl .record evs initSession (Or.inr hr)
      simpa [ProcessManager.getExit, runSess] using this
    have hxi : (runSess evs).exitInference.isSome = true := by
      have := exit_some_foldl .inference evs initSession (Or.inr hi)
      simpa [ProcessManager.getExit, runSess] using this
    by_cases hst : (runSess evs).status = SessStatus.running
    · exact absurd ⟨hxr, hxi⟩ (hrun hst).2
    · exact hterm hst

/-- Witness for the amended C3 at concrete traces: an overlapping
stop-request/epilogue/close/close trace finalizes at most once, and a
failing close followed by the sibling's close finalizes exactly once. -/
theorem C3_amended_finalize_exactly_once_witness :
    (runSess [SessEvent.stopReq, SessEvent.stopResolve,
      SessEvent.close .record (some 0) (some "SIGINT"),
      SessEvent.close .inference (some 0) (some "SIGINT")]).finalizeCount ≤ 1 ∧
    (runSess [SessEvent.close .record (some 1) none,
      SessEvent.close .inference (some 0) (some "SIGINT")]).finalizeCount = 1 :=
  ⟨C3_amended_finalize_exactly_once.1 _,
   C3_amended_finalize_exactly_once.2.1 _
     ⟨some 1, none, by decide⟩ ⟨some 0, some "SIGINT", by decide⟩⟩

/-- Claim C4: when the record subprocess of a running session closes with
code 1 while stop was not requested and the inference subprocess is still
alive, the session becomes `failed` with an error message containing
"record", and the inference subprocess is then sent the graceful SIGINT
termination signal. -/
theorem C4_record_failure_propagation (s : Session)
    (hrun : s.status = SessStatus.running) (hstop : s.stopRequested = false)
    (hinf : s.exitInference = none) (hsigs : s.sigsInference = []) :
    (sessStep s (.close .record (some 1) none)).status = SessStatus.failed ∧
    (∃ msg, (sessStep s (.close .record (some 1) none)).errorMessage = some msg ∧
      "record".toList <:+: msg.toList) ∧
    (sessStep s (.close .record (some 1) none)).sigsInference = ["SIGINT"] := by
  simp only [sessStep, ProcessManager.closeEvent, ProcessManager.onProcessExit,
    ProcessManager.setExit]
  rw [if_neg (by simp [hrun])]
  rw [if_pos (by simp [hstop])]
  simp only [ProcessManager.failSession, ProcessManager.finishSession]
  rw [if_neg (by simp [hrun])]
  rw [if_neg (by simp [hrun])]
  simp only [ProcessManager.sendSignal, ProcessManager.childDone,
    ProcessManager.getExit, ProcessManager.getSigs, ProcLabel.other]
  rw [if_neg (by simp [hinf, hsigs])]
  refine ⟨rfl, ⟨ProcessManager.exitMessage .record (some 1) none, rfl, ?_⟩, by simp [hsigs]⟩
  exact ⟨[], (" exited with code 1").toList, by decide⟩

/-- Witness for C4 at a fresh running session. -/
theorem C4_record_failure_propagation_witness :
    (sessStep initSession (.close .record (some 1) none)).status =
      SessStatus.failed ∧
    (∃ msg, (sessStep initSession
        (.close .record (some 1) none)).errorMessage = some msg ∧
      "record".toList <:+: msg.toList) ∧
    (sessStep initSession (.close .record (some 1) none)).sigsInference =
      ["SIGINT"] :=
  C4_record_failure_propagation initSession rfl rfl rfl rfl

/-! Section: Termination escalation (terminateProcess timers)

`terminateProcess` sends the initial graceful signal and schedules two
timers: `SIGTERM` at 2000 ms and `SIGKILL` at 5000 ms, each guarded by
`if (!child.killed)`.  Node sets `subprocess.killed` to true as soon as a
signal has been successfully sent — not when the process exits — so once
the initial `child.kill(signal)` succeeds the guards can never pass. -/

/-- Node child-process handle as `terminateProcess` observes it. -/
structure Child where
  exitCode : Option Int
  killed : Bool
deriving DecidableEq, Repr

/-- The complete list of signals `terminateProcess(child, label, signal)`
sends.  `aliveAt2000` / `aliveAt5000` tell whether the child is still
running when each timer fires (a `close` clears both timers).  After the
initial successful `child.kill(sig)`, Node's semantics set
`child.killed := true`, which the two timer guards then read. -/
def terminateSignals (c : Child) (sig : String)
    (aliveAt2000 aliveAt5000 : Bool) : List String :=
  if c.killed || c.exitCode.isSome then []
  else
    let c1 : Child := { c with killed := true }
    [sig] ++ (if aliveAt2000 && !c1.killed then ["SIGTERM"] else [])
          ++ (if aliveAt5000 && !c1.killed then ["SIGKILL"] else [])

/-- Claim C7 evaluated at the failing input: for a live subprocess that
ignores the graceful signal and is still alive when both escalation timers
fire, the code sends only the initial graceful signal — the intermediate
SIGTERM and the forceful SIGKILL are never sent, because `child.killed` is
already true once the first `kill` succeeded. -/
theorem C7_escalation_never_fires :
    terminateSignals ⟨none, false⟩ "SIGINT" true true = ["SIGINT"] ∧
    "SIGTERM" ∉ terminateSignals ⟨none, false⟩ "SIGINT" true true ∧
    "SIGKILL" ∉ terminateSignals ⟨none, false⟩ "SIGINT" true true := by
  decide

/-! Section: Auto-record stability detection (AutoRecordManager)

Embedding of the `arming`-phase detection loop: `handleDetectionTick`
restricted to ticks whose frame contained a qualifying person detection,
together with `isStableAddress`.  Pixel and timestamp arithmetic is over
`ℚ`; the bbox array `[x, y, w, h]` is a record; the
`Math.hypot(dx, dy) <= tol` comparison is embedded as
`0 ≤ tol ∧ dx^2 + dy^2 ≤ tol^2`, which is equivalent because `hypot` is
the nonnegative square root of `dx^2 + dy^2`. -/

structure DetBox where
  x : ℚ
  y : ℚ
  w : ℚ
  h : ℚ
deriving DecidableEq, Repr

structure AutoConfig where
  addressStillMs : ℚ
  addressMaxCenterDeltaPx : ℚ
  addressMaxAreaDeltaRatio : ℚ
deriving DecidableEq, Repr

/-- The `DEFAULT_CONFIG` fields used by the stability test. -/
def defaultAutoConfig : AutoConfig :=
  { addressStillMs := 2000, addressMaxCenterDeltaPx := 14,
    addressMaxAreaDeltaRatio := 12 / 100 }

namespace AutoRecordManager

/-- The in-tolerance comparison of `isStableAddress`: center displacement
within `addressMaxCenterDeltaPx` (the `hypot` comparison in squared form)
and relative area change within `addressMaxAreaDeltaRatio`. -/
def stableCheck (cfg : AutoConfig) (prev det : DetBox) : Bool :=
  decide (0 ≤ cfg.addressMaxCenterDeltaPx) &&
    decide ((det.x + det.w / 2 - (prev.x + prev.w / 2)) ^ 2 +
        (det.y + det.h / 2 - (prev.y + prev.h / 2)) ^ 2 ≤
      cfg.addressMaxCenterDeltaPx ^ 2) &&
    decide ((if 0 < prev.w * prev.h then
        |det.w * det.h - prev.w * prev.h| / (prev.w * prev.h) else 0) ≤
      cfg.addressMaxAreaDeltaRatio)

/-- The detection-stability fields of the manager. -/
structure ArmFields where
  stableRefBox : Option DetBox
  stableStartTs : Option ℚ
deriving DecidableEq, Repr

/-- The `isStableAddress(det, frameTs)` test: seed the reference box and window
start on the first detection, reset both on an out-of-tolerance detection,
otherwise keep the window and declare stability once the elapsed
frame-timestamp time reaches `addressStillMs`.  `now` is `Date.now()` for
the null-timestamp fallbacks. -/
def isStableAddress (cfg : AutoConfig) (st : ArmFields) (det : DetBox)
    (frameTs : Option ℚ) (now : ℚ) : Bool × ArmFields :=
  match st.stableRefBox with
  | none =>
      (false, { stableRefBox := some det, stableStartTs := some (frameTs.getD now) })
  | some prev =>
      if !(stableCheck cfg prev det) then
        (false, { stableRefBox := some det, stableStartTs := some (frameTs.getD now) })
      else
        (decide (cfg.addressStillMs ≤
          frameTs.getD now - st.stableStartTs.getD (frameTs.getD now)), st)

/-- The machine state of the `arming` phase: `locked` records the
`arming → addressLocked` transition (`enterAddressLocked` returns unless
the state is still `arming`, so `locked` is absorbing here). -/
structure ArmMachine where
  locked : Bool
  lastFrameTs : Option ℚ
  fields : ArmFields
  missingPersonFrames : Nat
deriving DecidableEq, Repr

/-- State right after `start()` ran `resetDetectionState()`. -/
def initArm : ArmMachine :=
  { locked := false, lastFrameTs := none,
    fields := { stableRefBox := none, stableStartTs := none },
    missingPersonFrames := 0 }

/-- One `handleDetectionTick` whose frame produced the qualifying person
detection `det` at timestamp `frameTs`: the duplicate-timestamp guard, the
`lastFrameTs` update, the missing-counter reset, and — while still in
`arming` — the `isStableAddress` test, entering `addressLocked` when it
declares stability. -/
def armTick (cfg : AutoConfig) (m : ArmMachine) (det : DetBox)
    (frameTs : Option ℚ) (now : ℚ) : ArmMachine :=
  if frameTs.isSome && (m.lastFrameTs == frameTs) then m
  else if m.locked then
    { m with lastFrameTs := frameTs, missingPersonFrames := 0 }
  else
    { m with lastFrameTs := frameTs, missingPersonFrames := 0,
             fields := (isStableAddress cfg m.fields det frameTs now).2,
             locked := (isStableAddress cfg m.fields det frameTs now).1 }

/-- A run of successive qualifying-detection ticks, each carrying a
non-null frame timestamp. -/
def runArm (cfg : AutoConfig) (m : ArmMachine) (ticks : List (DetBox × ℚ))
    (now : ℚ) : ArmMachine :=
  ticks.foldl (fun m p => armTick cfg m p.1 (some p.2) now) m

theorem armTick_locked (cfg : AutoConfig) (m : ArmMachine) (det : DetBox)
    (frameTs : Option ℚ) (now : ℚ) (h : m.locked = true) :
    (armTick cfg m det frameTs now).locked = true := by
  unfold armTick
  split
  · exact h
  · simp [h]

theorem runArm_locked (cfg : AutoConfig) (m : ArmMachine)
    (ticks : List (DetBox × ℚ)) (now : ℚ) (h : m.locked = true) :
    (runArm cfg m ticks now).locked = true := by
  induction ticks generalizing m with
  | nil => exact h
  | cons p rest ih =>
      exact ih (armTick cfg m p.1 (some p.2) now)
        (armTick_locked cfg m p.1 (some p.2) now h)

theorem armTick_seed (cfg : AutoConfig) (m : ArmMachine) (d : DetBox)
    (ts now : ℚ) (hm : m.locked = false)
    (hf : m.fields = ⟨none, none⟩) (hne : m.lastFrameTs ≠ some ts) :
    armTick cfg m d (some ts) now =
      { locked := false, lastFrameTs := some ts,
        fields := ⟨some d, some ts⟩, missingPersonFrames := 0 } := by
  have hbeq : (m.lastFrameTs == some ts) = false := beq_eq_false_iff_ne.2 hne
  unfold armTick
  rw [if_neg (by simp [hbeq])]
  rw [if_neg (by simp [hm])]
  rw [hf]
  simp [isStableAddress]

theorem armTick_inTol (cfg : AutoConfig) (d0 : DetBox) (ts0 : ℚ)
    (m : ArmMachine) (d : DetBox) (ts now : ℚ) (hm : m.locked = false)
    (hf : m.fields = ⟨some d0, some ts0⟩) (hne : m.lastFrameTs ≠ some ts)
    (hsc : stableCheck cfg d0 d = true) :
    armTick cfg m d (some ts) now =
      { locked := decide (cfg.addressStillMs ≤ ts - ts0),
        lastFrameTs := some ts, fields := ⟨some d0, some ts0⟩,
        missingPersonFrames := 0 } := by
  have hbeq : (m.lastFrameTs == some ts) = false := beq_eq_false_iff_ne.2 hne
  unfold armTick
  rw [if_neg (by simp [hbeq])]
  rw [if_neg (by simp [hm])]
  rw [hf]
  simp [isStableAddress, hsc]

theorem armTick_outTol (cfg : AutoConfig) (d0 : DetBox) (ts0 : ℚ)
    (m : ArmMachine) (d : DetBox) (ts now : ℚ) (hm : m.locked = false)
    (hf : m.fields = ⟨some d0, some ts0⟩) (hne : m.lastFrameTs ≠ some ts)
    (hsc : stableCheck cfg d0 d = false) :
    armTick cfg m d (some ts) now =
      { locked := false, lastFrameTs := some ts,
        fields := ⟨some d, some ts⟩, missingPersonFrames := 0 } := by
  have hbeq : (m.lastFrameTs == some ts) = false := beq_eq_false_iff_ne.2 hne
  unfold armTick
  rw [if_neg (by simp [hbeq])]
  rw [if_neg (by simp [hm])]
  rw [hf]
  simp [isStableAddress, hsc]

/-- Invariant run: while every tick is in tolerance of the reference box and
its elapsed time stays below `addressStillMs`, the machine stays in
`arming` with the seeded reference box and window start preserved, and the
last processed timestamp is one of the tick timestamps. -/
theorem armRun_short (cfg : AutoConfig) (d0 : DetBox) (ts0 now : ℚ) :
    ∀ (ticks : List (DetBox × ℚ)) (m : ArmMachine) (tsp : ℚ),
    m.locked = false → m.fields = ⟨some d0, some ts0⟩ →
    m.lastFrameTs = some tsp →
    List.Chain (· < ·) tsp (ticks.map Prod.snd) →
    (∀ p ∈ ticks, stableCheck cfg d0 p.1 = true) →
    (∀ p ∈ ticks, p.2 - ts0 < cfg.addressStillMs) →
    (runArm cfg m ticks now).locked = false ∧
    (runArm cfg m ticks now).fields = ⟨some d0, some ts0⟩ ∧
    ∃ t, (runArm cfg m ticks now).lastFrameTs = some t ∧
      t ∈ tsp :: ticks.map Prod.snd := by
  intro ticks
  induction ticks with
  | nil =>
      intro m tsp hm hf hlast _ _ _
      exact ⟨hm, hf, tsp, hlast, List.mem_cons_self _ _⟩
  | cons p rest ih =>
      intro m tsp hm hf hlast hchain htol hshort
      obtain ⟨d, ts⟩ := p
      rw [List.map_cons, List.chain_cons] at hchain
      have hne : m.lastFrameTs ≠ some ts := by
        rw [hlast]
        exact fun hcontra => absurd (Option.some_injective _ hcontra)
          (ne_of_lt hchain.1)
      have hdec : decide (cfg.addressStillMs ≤ ts - ts0) = false := by
        rw [decide_eq_false_iff_not]
        exact not_le.2 (hshort (d, ts) (List.mem_cons_self _ _))
      have hstep := armTick_inTol cfg d0 ts0 m d ts now hm hf hne
        (htol (d, ts) (List.mem_cons_self _ _))
      rw [hdec] at hstep
      have hrun : runArm cfg m ((d, ts) :: rest) now =
          runArm cfg (armTick cfg m d (some ts) now) rest now := rfl
      rw [hrun, hstep]
      have hnext := ih
        { locked := false, lastFrameTs := some ts,
          fields := ⟨some d0, some ts0⟩, missingPersonFrames := 0 } ts rfl rfl rfl
        hchain.2 (fun q hq => htol q (List.mem_cons_of_mem _ hq))
        (fun q hq => hshort q (List.mem_cons_of_mem _ hq))
      refine ⟨hnext.1, hnext.2.1, ?_⟩
      obtain ⟨t, hlt, hmem⟩ := hnext.2.2
      exact ⟨t, hlt, List.mem_cons_of_mem _ hmem⟩

/-- While in tolerance throughout, the machine locks as soon as some tick's
frame timestamp is at least `addressStillMs` past the window start. -/
theorem armRun_locks (cfg : AutoConfig) (d0 : DetBox) (ts0 now : ℚ) :
    ∀ (ticks : List (DetBox × ℚ)) (m : ArmMachine) (tsp : ℚ),
    m.locked = false → m.fields = ⟨some d0, some ts0⟩ →
    m.lastFrameTs = some tsp →
    List.Chain (· < ·) tsp (ticks.map Prod.snd) →
    (∀ p ∈ ticks, stableCheck cfg d0 p.1 = true) →
    (∃ p ∈ ticks, cfg.addressStillMs ≤ p.2 - ts0) →
    (runArm cfg m ticks now).locked = true := by
  intro ticks
  induction ticks with
  | nil =>
      intro m tsp _ _ _ _ _ hlong
      simp at hlong
  | cons p rest ih =>
      intro m tsp hm hf hlast hchain htol hlong
      obtain ⟨d, ts⟩ := p
      rw [List.map_cons, List.chain_cons] at hchain
      have hne : m.lastFrameTs ≠ some ts := by
        rw [hlast]
        exact fun hcontra => absurd (Option.some_injective _ hcontra)
          (ne_of_lt hchain.1)
      have hstep := armTick_inTol cfg d0 ts0 m d ts now hm hf hne
        (htol (d, ts) (List.mem_cons_self _ _))
      have hrun : runArm cfg m ((d, ts) :: rest) now =
          runArm cfg (armTick cfg m d (some ts) now) rest now := rfl
      by_cases hnow : cfg.addressStillMs ≤ ts - ts0
      · rw [hrun, hstep]
        exact runArm_locked cfg _ rest now (by simp [hnow])
      · have hdec : decide (cfg.addressStillMs ≤ ts - ts0) = false := by
          rw [decide_eq_false_iff_not]; exact hnow
        rw [hdec] at hstep
        rw [hrun, hstep]
        refine ih _ ts rfl rfl rfl hchain.2
          (fun q hq => htol q (List.mem_cons_of_mem _ hq)) ?_
        obtain ⟨q, hq, hqlong⟩ := hlong
        rcases List.mem_cons.1 hq with hqe | hq'
        · rw [hqe] at hqlong
          exact absurd hqlong hnow
        · exact ⟨q, hq', hqlong⟩

end AutoRecordManager

/-- Claim C9: in the arming state, the first qualifying detection seeds the
reference box and window start; subsequent in-tolerance detections preserve
the window, and the machine transitions `arming → addressLocked` once some
detection's frame timestamp is `addressStillMs` past the window start;
whereas a single out-of-tolerance detection partway through (before the
window elapsed) resets the reference box and window start to that
detection, so no premature lock occurs. -/
theorem C9_arming_stability :
    (∀ (cfg : AutoConfig) (d0 : DetBox) (ts0 : ℚ)
        (rest : List (DetBox × ℚ)) (now : ℚ),
      List.Chain (· < ·) ts0 (rest.map Prod.snd) →
      (∀ p ∈ rest, AutoRecordManager.stableCheck cfg d0 p.1 = true) →
      (∃ p ∈ rest, cfg.addressStillMs ≤ p.2 - ts0) →
      (AutoRecordManager.runArm cfg AutoRecordManager.initArm
        ((d0, ts0) :: rest) now).locked = true) ∧
    (∀ (cfg : AutoConfig) (d0 : DetBox) (ts0 : ℚ) (pre : List (DetBox × ℚ))
        (db : DetBox) (tsb : ℚ) (now : ℚ),
      List.Chain (· < ·) ts0 (pre.map Prod.snd) →
      (∀ p ∈ pre, AutoRecordManager.stableCheck cfg d0 p.1 = true) →
      (∀ p ∈ pre, p.2 - ts0 < cfg.addressStillMs) →
      (∀ t ∈ ts0 :: pre.map Prod.snd, t < tsb) →
      AutoRecordManager.stableCheck cfg d0 db = false →
      (AutoRecordManager.runArm cfg AutoRecordManager.initArm
        ((d0, ts0) :: (pre ++ [(db, tsb)])) now).locked = false ∧
      (AutoRecordManager.runArm cfg AutoRecordManager.initArm
        ((d0, ts0) :: (pre ++ [(db, tsb)])) now).fields =
        ⟨some db, some tsb⟩) := by
  constructor
  · intro cfg d0 ts0 rest now hchain htol hlong
    have hseed := AutoRecordManager.armTick_seed cfg AutoRecordManager.initArm
      d0 ts0 now rfl rfl (by simp [AutoRecordManager.initArm])
    have hrun : AutoRecordManager.runArm cfg AutoRecordManager.initArm
        ((d0, ts0) :: rest) now =
        AutoRecordManager.runArm cfg
          (AutoRecordManager.armTick cfg AutoRecordManager.initArm d0
            (some ts0) now) rest now := rfl
    rw [hrun, hseed]
    exact AutoRecordManager.armRun_locks cfg d0 ts0 now rest
      { locked := false, lastFrameTs := some ts0,
        fields := ⟨some d0, some ts0⟩, missingPersonFrames := 0 }
      ts0 rfl rfl rfl hchain htol hlong
  · intro cfg d0 ts0 pre db tsb now hchain htol hshort hgt hbad
    have hseed := AutoRecordManager.armTick_seed cfg AutoRecordManager.initArm
      d0 ts0 now rfl rfl (by simp [AutoRecordManager.initArm])
    have hrun : AutoRecordManager.runArm cfg AutoRecordManager.initArm
        ((d0, ts0) :: (pre ++ [(db, tsb)])) now =
        AutoRecordManager.runArm cfg
          (AutoRecordManager.armTick cfg AutoRecordManager.initArm d0
            (some ts0) now) (pre ++ [(db, tsb)]) now := rfl
    rw [hrun, hseed]
    have happ : AutoRecordManager.runArm cfg
        { locked := false, lastFrameTs := some ts0,
          fields := ⟨some d0, some ts0⟩, missingPersonFrames := 0 }
        (pre ++ [(db, tsb)]) now =
        AutoRecordManager.armTick cfg
          (AutoRecordManager.runArm cfg
            { locked := false, lastFrameTs := some ts0,
              fields := ⟨some d0, some ts0⟩, missingPersonFrames := 0 }
            pre now) db (some tsb) now := by
      unfold AutoRecordManager.runArm
      rw [List.foldl_append]
      rfl
    rw [happ]
    obtain ⟨hl, hfld, t, hlt, hmem⟩ :=
      AutoRecordManager.armRun_short cfg d0 ts0 now pre
        { locked := false, lastFrameTs := some ts0,
          fields := ⟨some d0, some ts0⟩, missingPersonFrames := 0 }
        ts0 rfl rfl rfl hchain htol hshort
    have hne : (AutoRecordManager.runArm cfg
        { locked := false, lastFrameTs := some ts0,
          fields := ⟨some d0, some ts0⟩, missingPersonFrames := 0 }
        pre now).lastFrameTs ≠ some tsb := by
      rw [hlt]
      exact fun hcontra => absurd (Option.some_injective _ hcontra)
        (ne_of_lt (hgt t hmem))
    have hstep := AutoRecordManager.armTick_outTol cfg d0 ts0 _ db tsb now
      hl hfld hne hbad
    rw [hstep]
    exact ⟨rfl, rfl⟩

/-- Concrete evaluation used by the C9 witness: an identical box is within
both tolerances of the default configuration. -/
theorem stableCheck_same_box :
    AutoRecordManager.stableCheck defaultAutoConfig ⟨100, 100, 50, 100⟩
      ⟨100, 100, 50, 100⟩ = true := by
  simp only [AutoRecordManager.stableCheck, defaultAutoConfig]
  rw [if_pos (by norm_num : (0 : ℚ) < 50 * 100)]
  rw [Bool.and_eq_true, Bool.and_eq_true]
  refine ⟨⟨?_, ?_⟩, ?_⟩ <;> rw [decide_eq_true_eq] <;> norm_num

/-- Concrete evaluation used by the C9 witness: a box displaced by 100 px
violates the 14 px center tolerance of the default configuration. -/
theorem stableCheck_moved_box :
    AutoRecordManager.stableCheck defaultAutoConfig ⟨100, 100, 50, 100⟩
      ⟨200, 100, 50, 100⟩ = false := by
  simp only [AutoRecordManager.stableCheck, defaultAutoConfig,
    Bool.and_eq_false_iff, decide_eq_false_iff_not]
  left
  right
  norm_num

/-- Witness for C9 with the default configuration: three identical boxes at
frame timestamps 0, 1000 and 2000 lock the machine (2000 ms elapsed), while
a displaced box at 1500 after the in-tolerance tick at 1000 resets the
reference box and window start with no lock. -/
theorem C9_arming_stability_witness :
    (AutoRecordManager.runArm defaultAutoConfig AutoRecordManager.initArm
      [(⟨100, 100, 50, 100⟩, 0), (⟨100, 100, 50, 100⟩, 1000),
       (⟨100, 100, 50, 100⟩, 2000)] 0).locked = true ∧
    (AutoRecordManager.runArm defaultAutoConfig AutoRecordManager.initArm
      [(⟨100, 100, 50, 100⟩, 0), (⟨100, 100, 50, 100⟩, 1000),
       (⟨200, 100, 50, 100⟩, 1500)] 0).locked = false ∧
    (AutoRecordManager.runArm defaultAutoConfig AutoRecordManager.initArm
      [(⟨100, 100, 50, 100⟩, 0), (⟨100, 100, 50, 100⟩, 1000),
       (⟨200, 100, 50, 100⟩, 1500)] 0).fields =
      ⟨some ⟨200, 100, 50, 100⟩, some 1500⟩ := by
  have htol2 : ∀ p ∈ [((⟨100, 100, 50, 100⟩ : DetBox), (1000 : ℚ)),
      (⟨100, 100, 50, 100⟩, 2000)],
      AutoRecordManager.stableCheck defaultAutoConfig ⟨100, 100, 50, 100⟩ p.1 =
        true := by
    intro p hp
    rcases List.mem_cons.1 hp with h | hp1
    · rw [h]; exact stableCheck_same_box
    · rcases List.mem_cons.1 hp1 with h | hp2
      · rw [h]; exact stableCheck_same_box
      · simp at hp2
  have htol1 : ∀ p ∈ [((⟨100, 100, 50, 100⟩ : DetBox), (1000 : ℚ))],
      AutoRecordManager.stableCheck defaultAutoConfig ⟨100, 100, 50, 100⟩ p.1 =
        true := by
    intro p hp
    rcases List.mem_cons.1 hp with h | hp1
    · rw [h]; exact stableCheck_same_box
    · simp at hp1
  have hchain2 : List.Chain (· < ·) (0 : ℚ)
      (List.map Prod.snd [((⟨100, 100, 50, 100⟩ : DetBox), (1000 : ℚ)),
        (⟨100, 100, 50, 100⟩, 2000)]) := by
    simp only [List.map_cons, List.map_nil]
    exact List.Chain.cons (by norm_num)
      (List.Chain.cons (by norm_num) List.Chain.nil)
  have hchain1 : List.Chain (· < ·) (0 : ℚ)
      (List.map Prod.snd [((⟨100, 100, 50, 100⟩ : DetBox), (1000 : ℚ))]) := by
    simp only [List.map_cons, List.map_nil]
    exact List.Chain.cons (by norm_num) List.Chain.nil
  have hshort1 : ∀ p ∈ [((⟨100, 100, 50, 100⟩ : DetBox), (1000 : ℚ))],
      p.2 - 0 < defaultAutoConfig.addressStillMs := by
    intro p hp
    rcases List.mem_cons.1 hp with h | hp1
    · rw [h]; norm_num [defaultAutoConfig]
    · simp at hp1
  have hgt1 : ∀ t ∈ (0 : ℚ) :: List.map Prod.snd
      [((⟨100, 100, 50, 100⟩ : DetBox), (1000 : ℚ))], t < 1500 := by
    intro t ht
    rcases List.mem_cons.1 ht with h | ht1
    · rw [h]; norm_num
    · simp only [List.map_cons, List.map_nil, List.mem_cons] at ht1
      rcases ht1 with h | ht2
      · rw [h]; norm_num
      · simp at ht2
  refine ⟨?_, ?_, ?_⟩
  · exact C9_arming_stability.1 defaultAutoConfig ⟨100, 100, 50, 100⟩ 0
      [(⟨100, 100, 50, 100⟩, 1000), (⟨100, 100, 50, 100⟩, 2000)] 0
      hchain2 htol2
      ⟨(⟨100, 100, 50, 100⟩, 2000), by simp, by norm_num [defaultAutoConfig]⟩
  · exact (C9_arming_stability.2 defaultAutoConfig ⟨100, 100, 50, 100⟩ 0
      [(⟨100, 100, 50, 100⟩, 1000)] ⟨200, 100, 50, 100⟩ 1500 0
      hchain1 htol1 hshort1 hgt1 stableCheck_moved_box).1
  · exact (C9_arming_stability.2 defaultAutoConfig ⟨100, 100, 50, 100⟩ 0
      [(⟨100, 100, 50, 100⟩, 1000)] ⟨200, 100, 50, 100⟩ 1500 0
      hchain1 htol1 hshort1 hgt1 stableCheck_moved_box).2

end Hailo
